import Mathlib

/-
Verification of the flatlens core against its natural-language specification.

The definitions below are a shallow embedding of the JavaScript sources:
  - src/js/Utils.js      : camera FOV conversions and clamps
  - src/js/Detector.js   : layout/projection detection and the EBML vint reader
  - src/js/Shaders.js    : the anaglyph compositing color math (current shader)
  - src/unnamed/part_003 : the Dubois anaglyph compositing color math (shader
                           variant with sRGB decode/encode and Dubois matrices)
  - src/js/Render.js     : material caching and pointer/wheel handlers

JavaScript numbers are idealized as exact reals (ℝ) where the code performs
trigonometry, and as exact rationals (ℚ) where all operations are rational, so
that concrete evaluations are decidable.  Where NaN propagation is the point of
a claim, numbers are modelled as `Option ℝ` with `none` playing NaN.  Where the
code performs 32-bit integer coercions (JavaScript `<<` and `|`), the exact
wrap-around semantics of ToInt32 is modelled on ℤ.
-/

namespace Flatlens

/- ===================== Utils.js : FOV conversions ===================== -/

/-- Utils.vFovDegToHFovDeg: converts vertical FOV (deg) to horizontal FOV (deg)
for a given aspect, `2 * (180/π) * atan(tan((π/180) * (vFov/2)) * aspect)`. -/
noncomputable def vFovDegToHFovDeg (vFovDeg aspect : ℝ) : ℝ :=
  2 * (180 / Real.pi) * Real.arctan (Real.tan ((Real.pi / 180) * (vFovDeg / 2)) * aspect)

/-- Utils.hFovDegToVFovDeg: converts horizontal FOV (deg) to vertical FOV (deg)
for a given aspect, `2 * (180/π) * atan(tan((π/180) * (hFov/2)) / aspect)`. -/
noncomputable def hFovDegToVFovDeg (hFovDeg aspect : ℝ) : ℝ :=
  2 * (180 / Real.pi) * Real.arctan (Real.tan ((Real.pi / 180) * (hFovDeg / 2)) / aspect)

/-- The argument record destructured by Utils.clampFov. -/
structure ClampFovArgs where
  min : ℝ
  max : ℝ
  projVFovDeg : ℝ
  projHFovDeg : ℝ
  aspect : ℝ

open Classical in
/-- Utils.clampFov: clamps the camera vertical FOV to projection and zoom
bounds.  The JavaScript guard `projHFovDeg && projHFovDeg === 180` is the
truthiness test (`≠ 0`) conjoined with the equality test. -/
noncomputable def clampFov (vFov : ℝ) (args : ClampFovArgs) : ℝ :=
  let vMax := min args.max (args.projVFovDeg - 1)
  let clamped := vFov
  let clamped :=
    if args.projHFovDeg ≠ 0 ∧ args.projHFovDeg = 180 then
      min clamped (hFovDegToVFovDeg (max 1 (args.projHFovDeg - 1)) args.aspect)
    else clamped
  max args.min (min vMax clamped)

/-- JavaScript truncating integer part (`Math.trunc`-style rounding used by
the `%` remainder operator). -/
noncomputable def jsTrunc (x : ℝ) : ℤ :=
  if 0 ≤ x then ⌊x⌋ else ⌈x⌉

/-- JavaScript `%` remainder: truncated division remainder, sign of the
dividend. -/
noncomputable def jsRem (x y : ℝ) : ℝ :=
  x - y * (jsTrunc (x / y) : ℝ)

open Classical in
/-- Utils.clampYawPitch: clamps pitch symmetrically to the remaining vertical
budget; clamps yaw analogously when the projection spans 180°, otherwise wraps
it modulo 2π (JavaScript `%`). -/
noncomputable def clampYawPitch (yaw pitch projHFovDeg projVFovDeg currentVFovDeg currentHFovDeg : ℝ) :
    ℝ × ℝ :=
  let pitchLimit := ((projVFovDeg - currentVFovDeg) / 2) * (Real.pi / 180)
  let newPitch := max (-pitchLimit) (min pitchLimit pitch)
  let newYaw :=
    if projHFovDeg = 180 then
      let yawLimit := ((projHFovDeg - currentHFovDeg) / 2) * (Real.pi / 180)
      max (-yawLimit) (min yawLimit yaw)
    else
      jsRem yaw (2 * Real.pi)
  (newYaw, newPitch)

/-- Utils.zoomFromWheel: new vertical FOV from wheel input before clamping. -/
noncomputable def zoomFromWheel (currentVFovDeg wheelDeltaY sensitivity : ℝ) : ℝ :=
  currentVFovDeg + wheelDeltaY * sensitivity

/-- Utils.dragToYawPitch: applies drag deltas to yaw/pitch using sensitivity. -/
noncomputable def dragToYawPitch (yaw pitch dx dy sensitivity : ℝ) : ℝ × ℝ :=
  (yaw + dx * sensitivity, pitch + dy * sensitivity)

/- SETTINGS constants from src/js/Render.js. -/

/-- Render.SETTINGS.VR_VFOV_DEG. -/
noncomputable def VR_VFOV_DEG : ℝ := 100
/-- Render.SETTINGS.VR_VFOV_MIN_DEG. -/
noncomputable def VR_VFOV_MIN_DEG : ℝ := 20
/-- Render.SETTINGS.VR_VFOV_MAX_DEG (epsilon away from 180). -/
noncomputable def VR_VFOV_MAX_DEG : ℝ := 179
/-- Render.SETTINGS.DRAG_SENSITIVITY (radians per pixel). -/
noncomputable def DRAG_SENSITIVITY : ℝ := 0.005
/-- Render.SETTINGS.ZOOM_SENSITIVITY. -/
noncomputable def ZOOM_SENSITIVITY : ℝ := 0.02

/-- C3: For every vertical FOV input (and any aspect and any projection
horizontal FOV; both spherical projections have vertical FOV 180°), the result
of clampFov with the renderer's settings (min 20, max 179) lies in
[VR_VFOV_MIN_DEG, VR_VFOV_MAX_DEG] and is strictly less than the projection's
vertical FOV of 180°. -/
theorem clampFov_bounds (vFov aspect projH : ℝ) :
    clampFov vFov ⟨VR_VFOV_MIN_DEG, VR_VFOV_MAX_DEG, 180, projH, aspect⟩ ∈
      Set.Icc VR_VFOV_MIN_DEG VR_VFOV_MAX_DEG ∧
    clampFov vFov ⟨VR_VFOV_MIN_DEG, VR_VFOV_MAX_DEG, 180, projH, aspect⟩ < 180 := by
  unfold clampFov VR_VFOV_MIN_DEG VR_VFOV_MAX_DEG
  simp only [Set.mem_Icc]
  set c := if (projH ≠ 0 ∧ projH = 180) then
      min vFov (hFovDegToVFovDeg (max 1 (projH - 1)) aspect)
    else vFov with hc
  have h1 : min (179 : ℝ) (180 - 1) = 179 := by norm_num
  have hle : max (20 : ℝ) (min (min 179 (180 - 1)) c) ≤ 179 := by
    apply max_le (by norm_num)
    calc min (min (179 : ℝ) (180 - 1)) c ≤ min (179 : ℝ) (180 - 1) := min_le_left _ _
      _ = 179 := h1
  refine ⟨⟨le_max_left _ _, hle⟩, lt_of_le_of_lt hle (by norm_num)⟩

/-- C9: Round-trip of the FOV conversions: for every vertical FOV v in the open
interval (0°, 180°) and every aspect ratio greater than 0,
hFovDegToVFovDeg (vFovDegToHFovDeg v aspect) aspect equals v — in the exact
real semantics the round trip is exact, hence in particular within any
floating-point tolerance. -/
theorem fov_round_trip (v aspect : ℝ) (hv0 : 0 < v) (hv1 : v < 180) (ha : 0 < aspect) :
    hFovDegToVFovDeg (vFovDegToHFovDeg v aspect) aspect = v := by
  have hpi := Real.pi_pos
  have hpine : Real.pi ≠ 0 := ne_of_gt hpi
  set θ := (Real.pi / 180) * (v / 2) with hθ
  have hθ0 : 0 < θ := by
    apply mul_pos (by positivity) (by positivity)
  have hθlt : θ < Real.pi / 2 := by
    rw [hθ]
    have : (Real.pi / 180) * (v / 2) < (Real.pi / 180) * 90 := by
      apply mul_lt_mul_of_pos_left _ (by positivity)
      linarith
    calc (Real.pi / 180) * (v / 2) < (Real.pi / 180) * 90 := this
      _ = Real.pi / 2 := by ring
  unfold hFovDegToVFovDeg vFovDegToHFovDeg
  have harg : (Real.pi / 180) *
      (2 * (180 / Real.pi) * Real.arctan (Real.tan θ * aspect) / 2) =
      Real.arctan (Real.tan θ * aspect) := by
    field_simp
    ring
  rw [harg, Real.tan_arctan, mul_div_assoc, div_self (ne_of_gt ha), mul_one,
    Real.arctan_tan (by linarith) hθlt, hθ]
  field_simp
  ring

/-- Witness for the round-trip theorem at v = 90, aspect = 2. -/
theorem fov_round_trip_witness :
    (0 : ℝ) < 90 ∧ (90 : ℝ) < 180 ∧ (0 : ℝ) < 2 ∧
      hFovDegToVFovDeg (vFovDegToHFovDeg 90 2) 2 = 90 :=
  ⟨by norm_num, by norm_num, by norm_num,
    fov_round_trip 90 2 (by norm_num) (by norm_num) (by norm_num)⟩

/- ============ JavaScript numbers with NaN (for the clamp claims) ============ -/

/-- A JavaScript number: a real, or NaN (`none`). -/
abbrev JSNum := Option ℝ

/-- JavaScript Math.min: NaN if either argument is NaN. -/
noncomputable def jsMin : JSNum → JSNum → JSNum
  | some a, some b => some (min a b)
  | _, _ => none

/-- JavaScript Math.max: NaN if either argument is NaN. -/
noncomputable def jsMax : JSNum → JSNum → JSNum
  | some a, some b => some (max a b)
  | _, _ => none

/-- JavaScript subtraction with NaN propagation. -/
noncomputable def jsSub : JSNum → JSNum → JSNum
  | some a, some b => some (a - b)
  | _, _ => none

/-- JavaScript multiplication with NaN propagation. -/
noncomputable def jsMul : JSNum → JSNum → JSNum
  | some a, some b => some (a * b)
  | _, _ => none

/-- JavaScript division with NaN propagation (the finite/±0 cases other than
NaN-in are not exercised by the theorems below). -/
noncomputable def jsDiv : JSNum → JSNum → JSNum
  | some a, some b => some (a / b)
  | _, _ => none

/-- JavaScript unary negation with NaN propagation. -/
noncomputable def jsNeg : JSNum → JSNum
  | some a => some (-a)
  | none => none

/-- JavaScript Math.atan (total on reals; NaN in, NaN out). -/
noncomputable def jsAtan : JSNum → JSNum
  | some a => some (Real.arctan a)
  | none => none

/-- JavaScript Math.tan (NaN in, NaN out). -/
noncomputable def jsTan : JSNum → JSNum
  | some a => some (Real.tan a)
  | none => none

/-- JavaScript `%` with NaN propagation. -/
noncomputable def jsRemN : JSNum → JSNum → JSNum
  | some a, some b => some (jsRem a b)
  | _, _ => none

/-- Math.PI as a JavaScript number. -/
noncomputable def jsPi : JSNum := some Real.pi

/-- JavaScript truthiness of a number: false for NaN and for 0. -/
def jsTruthy : JSNum → Prop
  | none => False
  | some v => v ≠ 0

/-- Utils.hFovDegToVFovDeg on JavaScript numbers (NaN propagating). -/
noncomputable def hFovDegToVFovDegN (hFovDeg aspect : JSNum) : JSNum :=
  jsMul (jsMul (some 2) (jsDiv (some 180) jsPi))
    (jsAtan (jsDiv (jsTan (jsMul (jsDiv jsPi (some 180)) (jsDiv hFovDeg (some 2)))) aspect))

open Classical in
/-- Utils.clampFov on JavaScript numbers, NaN propagation included. -/
noncomputable def clampFovN (vFov mn mx projV projH aspect : JSNum) : JSNum :=
  let vMax := jsMin mx (jsSub projV (some 1))
  let clamped := vFov
  let clamped :=
    if jsTruthy projH ∧ projH = some 180 then
      jsMin clamped (hFovDegToVFovDegN (jsMax (some 1) (jsSub projH (some 1))) aspect)
    else clamped
  jsMax mn (jsMin vMax clamped)

open Classical in
/-- Utils.clampYawPitch on JavaScript numbers, NaN propagation included. -/
noncomputable def clampYawPitchN (yaw pitch projH projV curV curH : JSNum) : JSNum × JSNum :=
  let pitchLimit := jsMul (jsDiv (jsSub projV curV) (some 2)) (jsDiv jsPi (some 180))
  let newPitch := jsMax (jsNeg pitchLimit) (jsMin pitchLimit pitch)
  let newYaw :=
    if projH = some 180 then
      let yawLimit := jsMul (jsDiv (jsSub projH curH) (some 2)) (jsDiv jsPi (some 180))
      jsMax (jsNeg yawLimit) (jsMin yawLimit yaw)
    else
      jsRemN yaw (jsMul (some 2) jsPi)
  (newYaw, newPitch)

/-- C4: the clamps do NOT coerce NaN to a valid bound — they propagate it.
With the renderer's settings (min 20, max 179, projection vertical FOV 180°,
horizontal 360°), a NaN vertical FOV input yields NaN out of clampFov, and a
NaN pitch yields NaN pitch out of clampYawPitch, contradicting the claim that
for every input (including NaN) the output is a finite value in range. -/
theorem clamp_nan_propagates :
    clampFovN none (some 20) (some 179) (some 180) (some 360) (some (16 / 9)) = none ∧
    (clampYawPitchN (some 0) none (some 360) (some 180) (some 100) (some 150)).2 = none := by
  constructor
  · simp only [clampFovN]
    split_ifs <;> rfl
  · unfold clampYawPitchN
    rfl

/- ============ Shaders: anaglyph compositing color math (C1) ============ -/

/-- An RGB triple over a scalar type. -/
structure RGB (α : Type) where
  r : α
  g : α
  b : α
deriving DecidableEq

/-- GLSL clamp on rationals: `clamp(x, lo, hi) = max(lo, min(hi, x))`. -/
def clampQ (x lo hi : ℚ) : ℚ := max lo (min hi x)

/-- GLSL clamp on reals. -/
noncomputable def clampR (x lo hi : ℝ) : ℝ := max lo (min hi x)

/-- The compositing tail of ANAGLYPH_FRAGMENT_SHADER /
ANAGLYPH_FLAT_FRAGMENT_SHADER in src/js/Shaders.js (the current shader):
given the four calibration uniforms and the two sampled eye texels, produce
the output color before the edge-fade multiply.  All operations are rational,
so the embedding is exact and executable. -/
def anaglyphCompose (uAntiRed uAntiGreen uAntiBlue uGreenBalance : ℚ)
    (leftRGB rightRGB : RGB ℚ) : RGB ℚ :=
  let LUMA_R : ℚ := 0.2126
  let LUMA_G : ℚ := 0.7152
  let LUMA_B : ℚ := 0.0722
  let antiRed := clampQ uAntiRed 0 1 * 0.5
  let antiGreen := clampQ uAntiGreen 0 1 * 0.5
  let antiBlue := clampQ uAntiBlue 0 1 * 0.5
  let greenBalance := clampQ uGreenBalance 0 1 * 0.5
  let leftGreenShare := leftRGB.g * greenBalance
  let rightGreenShare := rightRGB.g * (1 - greenBalance)
  let redChannel := clampQ (leftRGB.r + leftGreenShare) 0 1
  let preservedRed := 1 - antiRed
  let preservedGreen := 1 - antiGreen
  let preservedBlue := 1 - antiBlue
  let gainRed := 1 / max 0.01 (1 - antiRed * LUMA_R)
  let gainGreen := 1 / max 0.01 (1 - antiGreen * LUMA_G)
  let gainBlue := 1 / max 0.01 (1 - antiBlue * LUMA_B)
  let color : RGB ℚ :=
    ⟨redChannel * preservedRed * gainRed,
     rightGreenShare * preservedGreen * gainGreen,
     rightRGB.b * preservedBlue * gainBlue⟩
  ⟨clampQ color.r 0 1, clampQ color.g 0 1, clampQ color.b 0 1⟩

/-- GLSL sRGBToLinear from src/unnamed/part_003 (COLORSPACE chunk), one
channel: `mix(c/12.92, ((c+0.055)/1.055)^2.4, step(0.04045, c))`. -/
noncomputable def sRGBToLinear (c : ℝ) : ℝ :=
  if 0.04045 ≤ c then ((c + 0.055) / 1.055) ^ (2.4 : ℝ) else c / 12.92

/-- GLSL linearToSRGB from src/unnamed/part_003 (COLORSPACE chunk), one
channel: clamp to [0,1] of `mix(12.92*c, 1.055*c^(1/2.4) - 0.055,
step(0.0031308, c))` after `c = max(c, 0)`. -/
noncomputable def linearToSRGB (c : ℝ) : ℝ :=
  let c2 := max c 0
  clampR (if 0.0031308 ≤ c2 then 1.055 * c2 ^ ((1 : ℝ) / 2.4) - 0.055 else 12.92 * c2) 0 1

/-- The Dubois left-eye matrix ML from src/unnamed/part_003 applied to a
linear color.  The GLSL mat3 constructor is column-major, so the rows used
here are the transpose of the literal argument order in the shader source. -/
noncomputable def duboisLeft (v : RGB ℝ) : RGB ℝ :=
  ⟨0.456100 * v.r + 0.500484 * v.g + 0.176381 * v.b,
   -0.0400822 * v.r + -0.0378246 * v.g + -0.0157589 * v.b,
   -0.0152161 * v.r + -0.0205971 * v.g + -0.00546856 * v.b⟩

/-- The Dubois right-eye matrix MR from src/unnamed/part_003 applied to a
linear color (column-major constructor, as for duboisLeft). -/
noncomputable def duboisRight (v : RGB ℝ) : RGB ℝ :=
  ⟨-0.0434706 * v.r + -0.0879388 * v.g + -0.00155529 * v.b,
   0.378476 * v.r + 0.733640 * v.g + -0.0184503 * v.b,
   -0.0721527 * v.r + -0.1129610 * v.g + 1.2264000 * v.b⟩

/-- The Dubois compositing tail of ANAGLYPH_FRAGMENT_SHADER in
src/unnamed/part_003: decode both sampled texels from sRGB to linear, apply
the two Dubois matrices, clamp the linear composite to [0,1], and re-encode
to sRGB. -/
noncomputable def duboisCompose (leftRGB rightRGB : RGB ℝ) : RGB ℝ :=
  let ll : RGB ℝ := ⟨sRGBToLinear leftRGB.r, sRGBToLinear leftRGB.g, sRGBToLinear leftRGB.b⟩
  let rl : RGB ℝ := ⟨sRGBToLinear rightRGB.r, sRGBToLinear rightRGB.g, sRGBToLinear rightRGB.b⟩
  let ml := duboisLeft ll
  let mr := duboisRight rl
  let colorLinear : RGB ℝ :=
    ⟨clampR (ml.r + mr.r) 0 1, clampR (ml.g + mr.g) 0 1, clampR (ml.b + mr.b) 0 1⟩
  ⟨linearToSRGB colorLinear.r, linearToSRGB colorLinear.g, linearToSRGB colorLinear.b⟩

/-- Embeds a rational RGB triple into the reals. -/
noncomputable def rgbCast (v : RGB ℚ) : RGB ℝ := ⟨(v.r : ℝ), (v.g : ℝ), (v.b : ℝ)⟩

/-- C1 counterexample: with all leak-suppression values at 0 and greenBalance
at 0.5, the current shader's composite of left sample (0.04, 0, 0) and right
sample (0, 0, 0) has red channel 0.04 (it works directly on display-encoded
values), while the Dubois composite of the same raw samples has red channel
12.92 * (0.4561 * (0.04 / 12.92)) = 0.018244; therefore the shader output is
not the Dubois composite of the two raw eye samples. -/
theorem anaglyphCompose_ne_dubois :
    ((anaglyphCompose 0 0 0 (1 / 2) ⟨1 / 25, 0, 0⟩ ⟨0, 0, 0⟩).r : ℝ) ≠
      (duboisCompose ⟨1 / 25, 0, 0⟩ ⟨0, 0, 0⟩).r := by
  have hL : (anaglyphCompose 0 0 0 (1 / 2) ⟨1 / 25, 0, 0⟩ ⟨0, 0, 0⟩).r = 1 / 25 := by
    norm_num [anaglyphCompose, clampQ]
  have hlin : sRGBToLinear (1 / 25) = 1 / 323 := by
    rw [sRGBToLinear, if_neg (by norm_num)]
    norm_num
  have hlin0 : sRGBToLinear 0 = 0 := by
    rw [sRGBToLinear, if_neg (by norm_num)]
    norm_num
  have hR : (duboisCompose ⟨1 / 25, 0, 0⟩ ⟨0, 0, 0⟩).r = 12.92 * (0.456100 * (1 / 323)) := by
    show linearToSRGB (clampR
        ((duboisLeft ⟨sRGBToLinear (1 / 25), sRGBToLinear 0, sRGBToLinear 0⟩).r +
          (duboisRight ⟨sRGBToLinear 0, sRGBToLinear 0, sRGBToLinear 0⟩).r) 0 1) =
        12.92 * (0.456100 * (1 / 323))
    rw [hlin, hlin0]
    have hcl : clampR ((duboisLeft ⟨1 / 323, 0, 0⟩).r + (duboisRight ⟨0, 0, 0⟩).r) 0 1 =
        0.456100 * (1 / 323) := by
      rw [duboisLeft, duboisRight]
      show clampR (0.456100 * (1 / 323) + 0.500484 * 0 + 0.176381 * 0 +
        (-0.0434706 * 0 + -0.0879388 * 0 + -0.00155529 * 0)) 0 1 = 0.456100 * (1 / 323)
      rw [clampR]
      rw [min_eq_right (by norm_num), max_eq_right (by norm_num)]
      norm_num
    rw [hcl, linearToSRGB]
    rw [max_eq_left (by norm_num), if_neg (by norm_num), clampR,
      min_eq_right (by norm_num), max_eq_right (by norm_num)]
  rw [hL, hR]
  norm_num

/-- Helper: clamping an already clamped value is the identity. -/
theorem clampQ_clampQ (x : ℚ) : clampQ (clampQ x 0 1) 0 1 = clampQ x 0 1 := by
  have hy0 : (0 : ℚ) ≤ clampQ x 0 1 := le_max_left 0 _
  have hy1 : clampQ x 0 1 ≤ 1 := max_le (by norm_num) (min_le_left _ _)
  conv_lhs => rw [clampQ]
  rw [min_eq_right hy1, max_eq_right hy0]

/-- C1 (amended): the current anaglyph shader composites directly on
display-encoded samples, with no gamma decode/encode and no Dubois matrices:
with all leak-suppression calibration values at 0 and greenBalance at 0.5 the
output color is (clamp(L.r + 0.25*L.g), 0.75*R.g, R.b), each channel clamped
to [0,1]. -/
theorem anaglyphCompose_neutral (leftRGB rightRGB : RGB ℚ) :
    anaglyphCompose 0 0 0 (1 / 2) leftRGB rightRGB =
      ⟨clampQ (leftRGB.r + leftRGB.g * (1 / 4)) 0 1,
       clampQ (rightRGB.g * (3 / 4)) 0 1,
       clampQ rightRGB.b 0 1⟩ := by
  unfold anaglyphCompose
  have hbal : clampQ (1 / 2) 0 1 * 0.5 = (1 / 4 : ℚ) := by
    rw [clampQ, min_eq_right (by norm_num), max_eq_right (by norm_num)]
    norm_num
  have hzero : clampQ 0 0 1 * 0.5 = (0 : ℚ) := by
    rw [clampQ, min_eq_right (by norm_num), max_eq_right le_rfl]
    norm_num
  have hgain : ∀ w : ℚ, 1 / max 0.01 (1 - 0 * w) = (1 : ℚ) := by
    intro w
    rw [zero_mul, sub_zero, max_eq_right (by norm_num)]
    norm_num
  simp only [hbal, hzero, hgain, sub_zero, mul_one, one_mul]
  have h34 : (1 : ℚ) - 1 / 4 = 3 / 4 := by norm_num
  rw [h34]
  exact congrArg (fun x => RGB.mk x _ _) (clampQ_clampQ _)

/- ===================== Detector.js : string utilities ===================== -/

/-- Tests whether the first character list is a leading segment of the
second. -/
def leadsList : List Char → List Char → Bool
  | [], _ => true
  | _ :: _, [] => false
  | a :: as, b :: bs => a == b && leadsList as bs

/-- Tests whether the first character list occurs contiguously inside the
second (the semantics of JavaScript String.prototype.includes). -/
def hasSub (needle : List Char) : List Char → Bool
  | [] => leadsList needle []
  | b :: bs => leadsList needle (b :: bs) || hasSub needle bs

/-- JavaScript `hay.includes(needle)` on strings. -/
def jsIncludes (hay needle : String) : Bool :=
  hasSub needle.data hay.data

/-- ASCII upper-casing of one character (JavaScript toUpperCase restricted to
the ASCII range, which covers every keyword the detector compares). -/
def upChar (c : Char) : Char :=
  if 'a' ≤ c ∧ c ≤ 'z' then Char.ofNat (c.toNat - 32) else c

/-- ASCII lower-casing of one character. -/
def lowChar (c : Char) : Char :=
  if 'A' ≤ c ∧ c ≤ 'Z' then Char.ofNat (c.toNat + 32) else c

/-- JavaScript `s.toUpperCase()` (ASCII). -/
def jsToUpper (s : String) : String := ⟨s.data.map upChar⟩

/-- JavaScript `s.toLowerCase()` (ASCII). -/
def jsToLower (s : String) : String := ⟨s.data.map lowChar⟩

/- ============ Detector.js : EBML variable-length integers (C6) ============ -/

/-- JavaScript ToInt32: reduce an integer to the signed 32-bit range, as the
`<<` and `|` operators do. -/
def toInt32 (n : ℤ) : ℤ := (n + 2 ^ 31) % 2 ^ 32 - 2 ^ 31

/-- One accumulation step `value = (value << 8) | byte` of readVint, with
JavaScript 32-bit semantics: shift the current Int32 left by 8 (wrapping to
Int32), then bitwise-or the byte into the unsigned 32-bit pattern and
reinterpret as Int32. -/
def jsShlOrByte (v : ℤ) (b : ℕ) : ℤ :=
  let shifted := toInt32 (v * 256)
  toInt32 (((shifted % 2 ^ 32).toNat ||| b : ℕ))

/-- The marker-bit scan loop of readVint:
`while (width <= 8 && (first & mask) === 0) { mask >>= 1; width++; }`,
returning the final mask and width.  The fuel argument (9 at the call site)
bounds the loop, which runs at most 8 iterations. -/
def vintScan (first : ℕ) : ℕ → ℕ → ℕ → ℕ × ℕ
  | 0, mask, width => (mask, width)
  | fuel + 1, mask, width =>
    if width ≤ 8 && (first &&& mask) == 0 then vintScan first fuel (mask >>> 1) (width + 1)
    else (mask, width)

/-- The tail of Detector.readVint once the leading byte has been fetched and
scanned: bounds check against the scanned width, marker-bit handling
(`first & ~mask`, modelled as masking with the unsigned 32-bit pattern of
`~mask`), and the big-endian accumulation loop with JavaScript Int32
semantics. -/
def readVintCore (buf : List (Fin 256)) (pos : ℕ) (forId : Bool) (first : ℕ) :
    Option (ℤ × ℕ) :=
  let mw := vintScan first 9 128 1
  if 8 < mw.2 ∨ buf.length < pos + mw.2 then none
  else
    let v0 : ℤ := if forId then (first : ℤ) else ((first &&& (2 ^ 32 - 1 - mw.1) : ℕ) : ℤ)
    some ((List.range (mw.2 - 1)).foldl
      (fun v i => jsShlOrByte v (buf.getD (pos + 1 + i) 0).val) v0, mw.2)

/-- Detector.readVint: the EBML variable-length integer reader over a byte
buffer.  `none` models the JavaScript `null` returns; a successful read gives
the decoded (Int32) value and its byte width. -/
def readVint (buf : List (Fin 256)) (pos : ℕ) (forId : Bool) : Option (ℤ × ℕ) :=
  if buf.length ≤ pos then none
  else readVintCore buf pos forId (buf.getD pos 0).val

/-- Modelled from the spec: the position (from bit 0) of the highest set bit
of a byte, the quantity the spec describes as "the position of the leading
byte's highest set bit scanning from the most significant bit down". -/
def hb8 (first : ℕ) : ℕ :=
  if 128 ≤ first then 7 else if 64 ≤ first then 6 else if 32 ≤ first then 5
  else if 16 ≤ first then 4 else if 8 ≤ first then 3 else if 4 ≤ first then 2
  else if 2 ≤ first then 1 else 0

/-- Modelled from the spec: the byte width the spec assigns to a leading byte
whose highest set bit is at position `hb8`. -/
def vintWidthSpec (first : ℕ) : ℕ := 8 - hb8 first

/-- Modelled from the spec: big-endian combination of continuation bytes onto
an initial value. -/
def beCombine (init : ℤ) (bytes : List ℕ) : ℤ :=
  bytes.foldl (fun v b => v * 256 + (b : ℤ)) init

set_option maxRecDepth 8000 in
/-- hb8 is indeed the highest set bit of a nonzero byte: that bit is set, and
the byte lies strictly below the next power of two. -/
theorem hb8_highest_bit : ∀ f : Fin 256, f.val ≠ 0 →
    2 ^ hb8 f.val ≤ f.val ∧ f.val < 2 ^ (hb8 f.val + 1) ∧ f.val.testBit (hb8 f.val) = true := by
  decide

set_option maxRecDepth 8000 in
/-- The scan loop finds the highest set bit: for a nonzero byte it stops with
the mask on that bit and width `8 - hb8`; for a zero leading byte it runs out
with width 9. -/
theorem vintScan_char : ∀ f : Fin 256,
    vintScan f.val 9 128 1 =
      (if f.val = 0 then (0, 9) else (2 ^ hb8 f.val, 8 - hb8 f.val)) := by
  decide

set_option maxRecDepth 8000 in
/-- Masking the marker bit out of the leading byte subtracts the highest set
bit: `first & ~mask` with the found mask equals `first - 2 ^ hb8 first`. -/
theorem vintMask_eq_sub : ∀ f : Fin 256, f.val ≠ 0 →
    (f.val &&& (2 ^ 32 - 1 - 2 ^ hb8 f.val) : ℕ) = f.val - 2 ^ hb8 f.val := by
  decide

/-- toInt32 stays in the signed 32-bit range. -/
theorem toInt32_range (n : ℤ) : -2 ^ 31 ≤ toInt32 n ∧ toInt32 n < 2 ^ 31 := by
  unfold toInt32
  omega

/-- toInt32 is the identity on the signed 32-bit range. -/
theorem toInt32_eq_self {n : ℤ} (h0 : -2 ^ 31 ≤ n) (h1 : n < 2 ^ 31) : toInt32 n = n := by
  unfold toInt32
  omega

/-- toInt32 depends only on the value modulo 2^32. -/
theorem toInt32_congr {a b : ℤ} (h : a % 2 ^ 32 = b % 2 ^ 32) : toInt32 a = toInt32 b := by
  unfold toInt32
  omega

/-- toInt32 preserves the value modulo 2^32. -/
theorem toInt32_mod (n : ℤ) : toInt32 n % 2 ^ 32 = n % 2 ^ 32 := by
  unfold toInt32
  omega

/-- Bitwise or is addition when the left operand's low bits are clear. -/
theorem lor_eq_add_of_low_clear :
    ∀ (n x b : ℕ), x % 2 ^ n = 0 → b < 2 ^ n → x ||| b = x + b := by
  intro n
  induction n with
  | zero =>
    intro x b hx hb
    interval_cases b
    simp
  | succ n ih =>
    intro x b hx hb
    obtain ⟨k, hk⟩ := Nat.dvd_of_mod_eq_zero hx
    have hxk : x = 2 * (2 ^ n * k) := by
      rw [hk, pow_succ]
      ring
    have hx2 : x / 2 = 2 ^ n * k := by omega
    have hx2mod : x / 2 % 2 ^ n = 0 := by
      rw [hx2]
      exact Nat.mul_mod_right _ _
    have hb2 : b / 2 < 2 ^ n := by
      rw [pow_succ] at hb
      omega
    have hrec := ih (x / 2) (b / 2) hx2mod hb2
    have hdiv : (x ||| b) / 2 = x / 2 ||| b / 2 := Nat.or_div_two
    have hcombined : (x ||| b) / 2 = x / 2 + b / 2 := by rw [hdiv, hrec]
    have hiff := @Nat.or_mod_two_eq_one x b
    omega

set_option maxRecDepth 8000 in
/-- One accumulation step is the exact step reduced to Int32: for a byte
b < 256, `jsShlOrByte v b = toInt32 (v * 256 + b)`. -/
theorem jsShlOrByte_eq (v : ℤ) (b : ℕ) (hb : b < 256) :
    jsShlOrByte v b = toInt32 (v * 256 + b) := by
  simp only [jsShlOrByte]
  have hmodpos : (0 : ℤ) ≤ toInt32 (v * 256) % 2 ^ 32 := Int.emod_nonneg _ (by norm_num)
  have hmodlt : toInt32 (v * 256) % 2 ^ 32 < 2 ^ 32 := Int.emod_lt_of_pos _ (by norm_num)
  set X : ℕ := (toInt32 (v * 256) % 2 ^ 32).toNat with hX
  have hXcast : (X : ℤ) = toInt32 (v * 256) % 2 ^ 32 := Int.toNat_of_nonneg hmodpos
  have hXv : (X : ℤ) = (v * 256) % 2 ^ 32 := by
    rw [hXcast, toInt32_mod]
  have hX256 : X % 2 ^ 8 = 0 := by
    have h1 : (v * 256) % 2 ^ 32 % 256 = (v * 256) % 256 :=
      Int.emod_emod_of_dvd _ (by norm_num)
    have h2 : (v * 256) % 256 = 0 := Int.mul_emod_left _ _
    have : (X : ℤ) % 256 = 0 := by rw [hXv, h1, h2]
    omega
  have hlor : X ||| b = X + b := lor_eq_add_of_low_clear 8 X b hX256 (by omega)
  rw [hlor]
  apply toInt32_congr
  push_cast
  omega

set_option maxRecDepth 8000 in
/-- The highest-bit position of a byte is at most 7. -/
theorem hb8_le_seven : ∀ f : Fin 256, hb8 f.val ≤ 7 := by decide

/-- beCombine only depends on the initial value modulo 2^32. -/
theorem beCombine_congr :
    ∀ (bs : List ℕ) (a b : ℤ), a % 2 ^ 32 = b % 2 ^ 32 →
      beCombine a bs % 2 ^ 32 = beCombine b bs % 2 ^ 32 := by
  intro bs
  induction bs with
  | nil => intro a b h; exact h
  | cons c cs ih =>
    intro a b h
    show beCombine (a * 256 + c) cs % 2 ^ 32 = beCombine (b * 256 + c) cs % 2 ^ 32
    exact ih _ _ (by omega)

/-- beCombine of a nonnegative initial value is nonnegative. -/
theorem beCombine_nonneg :
    ∀ (bs : List ℕ) (a : ℤ), 0 ≤ a → 0 ≤ beCombine a bs := by
  intro bs
  induction bs with
  | nil => intro a h; exact h
  | cons c cs ih =>
    intro a h
    show 0 ≤ beCombine (a * 256 + c) cs
    exact ih _ (by positivity)

/-- The accumulation fold of readVint computes the big-endian combination of
the continuation bytes reduced to a signed 32-bit integer. -/
theorem foldShl_eq :
    ∀ (bytes : List ℕ), (∀ x ∈ bytes, x < 256) → ∀ v : ℤ, -2 ^ 31 ≤ v → v < 2 ^ 31 →
      bytes.foldl jsShlOrByte v = toInt32 (beCombine v bytes) := by
  intro bytes
  induction bytes with
  | nil =>
    intro _ v h0 h1
    exact (toInt32_eq_self h0 h1).symm
  | cons b bs ih =>
    intro hlt v h0 h1
    have hb : b < 256 := hlt b (List.mem_cons_self b bs)
    rw [List.foldl_cons, jsShlOrByte_eq v b hb]
    have hrange := toInt32_range (v * 256 + b)
    rw [ih (fun x hx => hlt x (List.mem_cons_of_mem _ hx)) _ hrange.1 hrange.2]
    apply toInt32_congr
    exact beCombine_congr bs _ _ (toInt32_mod _)

/-- Characterization of readVintCore for an arbitrary leading byte value:
failure exactly on a zero leading byte or a read past the buffer end, and on
success the width/mask/value description of the C6 theorem. -/
theorem readVintCore_char (buf : List (Fin 256)) (pos : ℕ) (forId : Bool)
    (first : ℕ) (h256 : first < 256) :
    (readVintCore buf pos forId first = none ↔
      first = 0 ∨ buf.length < pos + vintWidthSpec first)
    ∧ (∀ value width, readVintCore buf pos forId first = some (value, width) →
        width = vintWidthSpec first ∧ 1 ≤ width ∧ width ≤ 8 ∧
        value = toInt32 (beCombine
          (if forId then (first : ℤ) else (first : ℤ) - 2 ^ hb8 first)
          ((List.range (width - 1)).map (fun i => (buf.getD (pos + 1 + i) 0).val))) ∧
        (beCombine
          (if forId then (first : ℤ) else (first : ℤ) - 2 ^ hb8 first)
          ((List.range (width - 1)).map (fun i => (buf.getD (pos + 1 + i) 0).val)) < 2 ^ 31 →
          value = beCombine
            (if forId then (first : ℤ) else (first : ℤ) - 2 ^ hb8 first)
            ((List.range (width - 1)).map (fun i => (buf.getD (pos + 1 + i) 0).val)))) := by
  have hscan : vintScan first 9 128 1 =
      if first = 0 then (0, 9) else (2 ^ hb8 first, 8 - hb8 first) :=
    vintScan_char ⟨first, h256⟩
  have hfst : ∀ (a b : ℕ), (Prod.mk a b).1 = a := fun _ _ => rfl
  have hsnd : ∀ (a b : ℕ), (Prod.mk a b).2 = b := fun _ _ => rfl
  simp only [readVintCore, hscan]
  by_cases hz : first = 0
  · rw [if_pos hz]
    simp only [hfst, hsnd]
    rw [if_pos (Or.inl (by norm_num))]
    constructor
    · simp [hz]
    · intro value width h
      exact absurd h (by simp)
  · rw [if_neg hz]
    simp only [hfst, hsnd]
    have hwle : hb8 first ≤ 7 := hb8_le_seven ⟨first, h256⟩
    have hbit : 2 ^ hb8 first ≤ first ∧ first < 2 ^ (hb8 first + 1) ∧
        Nat.testBit first (hb8 first) = true := hb8_highest_bit ⟨first, h256⟩ hz
    have hw : vintWidthSpec first = 8 - hb8 first := rfl
    by_cases hlen : buf.length < pos + (8 - hb8 first)
    · rw [if_pos (Or.inr hlen)]
      constructor
      · rw [hw]
        simp [hz, hlen]
      · intro value width h
        exact absurd h (by simp)
    · rw [if_neg (by omega)]
      constructor
      · rw [hw]
        simp [hz, hlen]
      · intro value width h
        rw [Option.some.injEq, Prod.mk.injEq] at h
        obtain ⟨hvalue, hwidth⟩ := h
        have hstart : (if forId then (first : ℤ)
            else ((first &&& (2 ^ 32 - 1 - 2 ^ hb8 first) : ℕ) : ℤ)) =
            (if forId then (first : ℤ) else (first : ℤ) - 2 ^ hb8 first) := by
          rcases forId with _ | _
          · simp only [Bool.false_eq_true, if_false]
            rw [vintMask_eq_sub ⟨first, h256⟩ hz]
            push_cast [Nat.cast_sub hbit.1]
            ring
          · rfl
        have hcastle : (2 : ℤ) ^ hb8 first ≤ (first : ℤ) := by
          exact_mod_cast hbit.1
        have hc0 : (0 : ℤ) ≤ (first : ℤ) := Int.natCast_nonneg _
        have hc2 : (first : ℤ) < 256 := by exact_mod_cast h256
        have hpow0 : (0 : ℤ) ≤ 2 ^ hb8 first := by positivity
        have hstartrange : -2 ^ 31 ≤ (if forId then (first : ℤ)
            else (first : ℤ) - 2 ^ hb8 first) ∧
            (if forId then (first : ℤ) else (first : ℤ) - 2 ^ hb8 first) < 2 ^ 31 := by
          rcases forId with _ | _
          · constructor
            · show -2 ^ 31 ≤ (first : ℤ) - 2 ^ hb8 first
              omega
            · show (first : ℤ) - 2 ^ hb8 first < 2 ^ 31
              omega
          · constructor
            · show -2 ^ 31 ≤ (first : ℤ)
              omega
            · show (first : ℤ) < 2 ^ 31
              omega
        have hfold : (List.range (8 - hb8 first - 1)).foldl
            (fun v i => jsShlOrByte v (buf.getD (pos + 1 + i) 0).val)
            (if forId then (first : ℤ) else (first : ℤ) - 2 ^ hb8 first) =
            toInt32 (beCombine
              (if forId then (first : ℤ) else (first : ℤ) - 2 ^ hb8 first)
              ((List.range (8 - hb8 first - 1)).map
                (fun i => (buf.getD (pos + 1 + i) 0).val))) := by
          rw [← List.foldl_map (fun i => (buf.getD (pos + 1 + i) 0).val) jsShlOrByte]
          apply foldShl_eq
          · intro x hx
            obtain ⟨i, _, hix⟩ := List.mem_map.mp hx
            rw [← hix]
            exact (buf.getD (pos + 1 + i) 0).isLt
          · exact hstartrange.1
          · exact hstartrange.2
        subst hwidth
        refine ⟨hw.symm, by omega, by omega, ?_, ?_⟩
        · rw [← hvalue, hstart, hfold]
        · intro hsmall
          rw [← hvalue, hstart, hfold]
          have hnn : 0 ≤ beCombine
              (if forId then (first : ℤ) else (first : ℤ) - 2 ^ hb8 first)
              ((List.range (8 - hb8 first - 1)).map
                (fun i => (buf.getD (pos + 1 + i) 0).val)) := by
            apply beCombine_nonneg
            rcases forId with _ | _
            · show (0 : ℤ) ≤ (first : ℤ) - 2 ^ hb8 first
              omega
            · show (0 : ℤ) ≤ (first : ℤ)
              omega
          exact toInt32_eq_self (by omega) hsmall

/-- C6 (amended): readVint fails exactly when the position is outside the
buffer, the leading byte has no set bit (marker unset within 8 bytes), or the
read of the scanned width would exceed the buffer; on success the width is
8 minus the position of the leading byte's highest set bit, the value starts
from the full leading byte for an element ID and from the leading byte with
its marker bit masked out for a size, and the continuation bytes are combined
big-endian reduced to a signed 32-bit integer (hence equal to the plain
big-endian combination exactly when that combination fits below 2^31). -/
theorem readVint_spec (buf : List (Fin 256)) (pos : ℕ) (forId : Bool) :
    (readVint buf pos forId = none ↔
      buf.length ≤ pos ∨ (buf.getD pos 0).val = 0 ∨
        buf.length < pos + vintWidthSpec (buf.getD pos 0).val)
    ∧ (∀ value width, readVint buf pos forId = some (value, width) →
        width = vintWidthSpec (buf.getD pos 0).val ∧ 1 ≤ width ∧ width ≤ 8 ∧
        value = toInt32 (beCombine
          (if forId then ((buf.getD pos 0).val : ℤ)
           else ((buf.getD pos 0).val : ℤ) - 2 ^ hb8 (buf.getD pos 0).val)
          ((List.range (width - 1)).map (fun i => (buf.getD (pos + 1 + i) 0).val))) ∧
        (beCombine
          (if forId then ((buf.getD pos 0).val : ℤ)
           else ((buf.getD pos 0).val : ℤ) - 2 ^ hb8 (buf.getD pos 0).val)
          ((List.range (width - 1)).map (fun i => (buf.getD (pos + 1 + i) 0).val)) < 2 ^ 31 →
          value = beCombine
            (if forId then ((buf.getD pos 0).val : ℤ)
             else ((buf.getD pos 0).val : ℤ) - 2 ^ hb8 (buf.getD pos 0).val)
            ((List.range (width - 1)).map (fun i => (buf.getD (pos + 1 + i) 0).val)))) := by
  have hcore := readVintCore_char buf pos forId (buf.getD pos 0).val (buf.getD pos 0).isLt
  unfold readVint
  by_cases hpos : buf.length ≤ pos
  · rw [if_pos hpos]
    constructor
    · constructor
      · intro _
        exact Or.inl hpos
      · intro _
        rfl
    · intro value width h
      exact absurd h (by simp)
  · rw [if_neg hpos]
    constructor
    · rw [hcore.1]
      constructor
      · intro h
        exact Or.inr h
      · intro h
        rcases h with h | h
        · exact absurd h hpos
        · exact h
    · exact hcore.2

/-- Witness for readVint on the two-byte size vint 0x40 0x02: width 2
(leading bit of 0x40 at position 6), marker masked out, value 2. -/
theorem readVint_spec_witness :
    readVint [(64 : Fin 256), 2] 0 false = some (2, 2) ∧ (2 : ℕ) = vintWidthSpec 64 :=
  ⟨by decide, ((readVint_spec [64, 2] 0 false).2 2 2 (by decide)).1⟩

/-- The eight-byte buffer 01 80 00 00 00 00 00 00, a size vint whose
big-endian value is 2^55. -/
def wrapVintBuf : List (Fin 256) := [1, 128, 0, 0, 0, 0, 0, 0]

/-- C6 counterexample: on the 8-byte size vint 01 80 00 00 00 00 00 00 the
reader returns value 0 (JavaScript `(value << 8) | byte` wraps at 32 bits),
while the big-endian combination of the continuation bytes onto the masked
leading byte is 2^55 ≠ 0 — so the decoded value is not the plain big-endian
combination of the continuation bytes. -/
theorem readVint_wraps :
    readVint wrapVintBuf 0 false = some (0, 8) ∧
    beCombine ((1 : ℤ) - 2 ^ hb8 1) [128, 0, 0, 0, 0, 0, 0] = 2 ^ 55 ∧
    (0 : ℤ) ≠ 2 ^ 55 := by
  refine ⟨by decide, by decide, by decide⟩

/-- Detector.SBS_KEYWORDS. -/
def SBS_KEYWORDS : List String :=
  ["SBS", "HSBS", "FSBS", "Half-SBS", "Side-by-Side", "3D.SBS", "3D-SBS", "sbs3d", "SBS3D"]

/-- Detector.OU_KEYWORDS. -/
def OU_KEYWORDS : List String :=
  ["OU", "HOU", "FOU", "Half-OU", "Over-Under", "TAB", "HTAB", "Top-Bottom", "TopBottom", "T-B"]

/-- A classification result: the value together with the detection method tag
that produced it (`{ value, method }` in the source). -/
structure DetectTag where
  value : String
  method : String
deriving DecidableEq

/-- The snapshot of the store state consumed by the detector and the
renderer.  `videoTracks` lists each track's optional stereoMode string;
`videoWidth`/`videoHeight` are the decoded frame dimensions. -/
structure StoreSnap where
  videoTracks : List (Option String)
  name : String
  videoWidth : ℚ
  videoHeight : ℚ
  layout : String
  resolution : String
  projection : String
  view : String
  eye : String
  antiR : ℚ
  antiG : ℚ
  antiB : ℚ
  balance : ℚ
  convergence : ℚ
  depthCompression : ℚ

/-- The metadata scan of Detector.detectLayout (method 1): the first track
whose stereoMode (lower-cased, empty when absent) contains one of the four
markers decides the layout. -/
def trackScan : List (Option String) → Option DetectTag
  | [] => none
  | t :: rest =>
    let mode := jsToLower (t.getD "")
    if jsIncludes mode "left_right" || jsIncludes mode "right_left" then
      some ⟨"sbs", "metadata"⟩
    else if jsIncludes mode "top_bottom" || jsIncludes mode "bottom_top" then
      some ⟨"ou", "metadata"⟩
    else trackScan rest

/-- Detector.detectLayout: metadata stereo-mode flag first, then
case-insensitive filename keywords (SBS before OU), then aspect-ratio
inference (≥ 2.8 → sbs, ≤ 1.12 → ou, each tagged with
Detector.METHOD.RESOLUTION = "resolution"), else the current layout with
method "default". -/
def detectLayout (s : StoreSnap) : DetectTag :=
  match trackScan s.videoTracks with
  | some r => r
  | none =>
    let nameUpper := jsToUpper s.name
    if SBS_KEYWORDS.any (fun kw => jsIncludes nameUpper kw) then ⟨"sbs", "filename"⟩
    else if OU_KEYWORDS.any (fun kw => jsIncludes nameUpper kw) then ⟨"ou", "filename"⟩
    else
      let aspectRatio := s.videoWidth / s.videoHeight
      if 2.8 ≤ aspectRatio then ⟨"sbs", "resolution"⟩
      else if aspectRatio ≤ 1.12 then ⟨"ou", "resolution"⟩
      else ⟨s.layout, "default"⟩

/-- A store snapshot with no metadata stereo flag and no layout keyword in the
filename, whose frame is 2800x1000 (aspect ratio 2.8). -/
def wideSnap : StoreSnap :=
  { videoTracks := [], name := "video.mp4", videoWidth := 2800, videoHeight := 1000
  , layout := "ou", resolution := "full", projection := "flat", view := "watch"
  , eye := "left", antiR := 0, antiG := 0, antiB := 0, balance := 0
  , convergence := 0.5, depthCompression := 0 }

/-- C7 counterexample: for a video with no metadata stereo flag, no filename
keyword, and aspect ratio 2.8, detectLayout returns the sbs layout tagged with
the method string "resolution" (Detector.METHOD.RESOLUTION) — not
"resolution-inference" as the claim states. -/
theorem detectLayout_method_string :
    detectLayout wideSnap = ⟨"sbs", "resolution"⟩ ∧ "resolution" ≠ "resolution-inference" := by
  constructor
  · unfold detectLayout
    rw [show trackScan wideSnap.videoTracks = none from rfl]
    have h1 : SBS_KEYWORDS.any (fun kw => jsIncludes (jsToUpper wideSnap.name) kw) = false := by
      decide
    have h2 : OU_KEYWORDS.any (fun kw => jsIncludes (jsToUpper wideSnap.name) kw) = false := by
      decide
    simp only [h1, h2, Bool.false_eq_true, if_false]
    rw [if_pos (by norm_num [wideSnap])]
  · decide

/-- C7 (amended): for every video whose metadata carries no stereo-mode flag
and whose filename contains no SBS/OU keyword, detectLayout with aspect ratio
at least 2.8 returns layout sbs and with aspect ratio at most 1.12 returns
layout ou, in both cases tagged with the resolution-inference method, whose
tag string in the code is "resolution". -/
theorem detectLayout_aspect_inference (s : StoreSnap)
    (hmeta : trackScan s.videoTracks = none)
    (hsbs : SBS_KEYWORDS.any (fun kw => jsIncludes (jsToUpper s.name) kw) = false)
    (hou : OU_KEYWORDS.any (fun kw => jsIncludes (jsToUpper s.name) kw) = false) :
    (2.8 ≤ s.videoWidth / s.videoHeight → detectLayout s = ⟨"sbs", "resolution"⟩) ∧
    (s.videoWidth / s.videoHeight ≤ 1.12 → detectLayout s = ⟨"ou", "resolution"⟩) := by
  unfold detectLayout
  rw [hmeta]
  simp only [hsbs, hou, Bool.false_eq_true, if_false]
  constructor
  · intro hwide
    rw [if_pos hwide]
  · intro htall
    have hnot : ¬ ((2.8 : ℚ) ≤ s.videoWidth / s.videoHeight) := by
      intro hge
      have : (2.8 : ℚ) ≤ 1.12 := le_trans hge htall
      norm_num at this
    rw [if_neg hnot, if_pos htall]

/-- Witness for the aspect-ratio inference theorem on the concrete 2800x1000
snapshot. -/
theorem detectLayout_aspect_inference_witness :
    trackScan wideSnap.videoTracks = none ∧
    detectLayout wideSnap = ⟨"sbs", "resolution"⟩ :=
  ⟨rfl, (detectLayout_aspect_inference wideSnap rfl (by decide) (by decide)).1 (by norm_num [wideSnap])⟩

/- ================ Detector.js : XMP classification (C5) ================ -/

/-- The pano-dimension decision of Detector._classifyFromXmp: the four parsed
dimensions (with `none` for an absent tag — `toNum` yields NaN, which fails
the `isFinite` test); vr180 when full dimensions are positive and the ratios
are in range, vr360 otherwise. -/
def classifyDims (fullW fullH cropW cropH : Option ℚ) : Option String :=
  match fullW, fullH, cropW, cropH with
  | some fw, some fh, some cw, some ch =>
    if 0 < fw ∧ 0 < fh then
      let wFrac := cw / fw
      let hFrac := ch / fh
      if 0.49 ≤ wFrac ∧ wFrac ≤ 0.51 ∧ 0.95 ≤ hFrac ∧ hFrac ≤ 1.05 then
        some "vr180"
      else some "vr360"
    else some "vr360"
  | _, _, _, _ => some "vr360"

/-- The tail of Detector._classifyFromXmp once the ProjectionType value is
present: the JavaScript `!proj` falsiness test, the lower-cased comparison
against "equirectangular", then the dimension-ratio decision of
`classifyDims`. -/
def classifyProj (p : String) (fullW fullH cropW cropH : Option ℚ) : Option String :=
  if p = "" then none
  else
    let pl := jsToLower p
    if pl ≠ "equirectangular" then none
    else classifyDims fullW fullH cropW cropH

/-- Detector._classifyFromXmp, modelled on the values extracted from the XMP
packet: `proj` is the resolved ProjectionType tag/attribute value (the
JavaScript `||` chain yields `none` when every alternative is falsy). -/
def classifyFromXmp (proj : Option String) (fullW fullH cropW cropH : Option ℚ) :
    Option String :=
  match proj with
  | none => none
  | some p => classifyProj p fullW fullH cropW cropH

/-- The half-sphere condition of the XMP classifier: all four pano dimensions
parsed, positive full dimensions, width ratio in [0.49, 0.51] and height ratio
in [0.95, 1.05]. -/
def xmpHalfSphereCond (fullW fullH cropW cropH : Option ℚ) : Prop :=
  ∃ fw fh cw ch, fullW = some fw ∧ fullH = some fh ∧ cropW = some cw ∧ cropH = some ch ∧
    0 < fw ∧ 0 < fh ∧
    0.49 ≤ cw / fw ∧ cw / fw ≤ 0.51 ∧ 0.95 ≤ ch / fh ∧ ch / fh ≤ 1.05

/-- C5: the XMP classifier returns no projection exactly when the
ProjectionType value is absent or (after lower-casing) not equirectangular;
otherwise it returns vr180 when the pano dimensions are present and positive
with width ratio in [0.49, 0.51] and height ratio in [0.95, 1.05], and vr360
in every other case, including missing or non-positive pano dimensions. -/
theorem classifyFromXmp_spec (fullW fullH cropW cropH : Option ℚ) :
    classifyFromXmp none fullW fullH cropW cropH = none
    ∧ (∀ p, jsToLower p ≠ "equirectangular" →
        classifyFromXmp (some p) fullW fullH cropW cropH = none)
    ∧ (∀ p, jsToLower p = "equirectangular" →
        (xmpHalfSphereCond fullW fullH cropW cropH →
          classifyFromXmp (some p) fullW fullH cropW cropH = some "vr180")
        ∧ (¬ xmpHalfSphereCond fullW fullH cropW cropH →
          classifyFromXmp (some p) fullW fullH cropW cropH = some "vr360")) := by
  have hred : ∀ p : String, classifyFromXmp (some p) fullW fullH cropW cropH =
      classifyProj p fullW fullH cropW cropH := fun _ => rfl
  refine ⟨rfl, ?_, ?_⟩
  · intro p hne
    rw [hred, classifyProj]
    by_cases hp : p = ""
    · rw [if_pos hp]
    · rw [if_neg hp]
      simp only [if_pos hne]
  · intro p heq
    have hpne : p ≠ "" := by
      intro h
      rw [h] at heq
      exact absurd heq (by decide)
    have hcond : ¬ (jsToLower p ≠ "equirectangular") := not_not_intro heq
    have hproj : classifyProj p fullW fullH cropW cropH =
        classifyDims fullW fullH cropW cropH := by
      rw [classifyProj, if_neg hpne]
      simp only [if_neg hcond]
    constructor
    · rintro ⟨fw, fh, cw, ch, rfl, rfl, rfl, rfl, h1, h2, h3, h4, h5, h6⟩
      rw [hred, hproj]
      show (if 0 < fw ∧ 0 < fh then
          if 0.49 ≤ cw / fw ∧ cw / fw ≤ 0.51 ∧ 0.95 ≤ ch / fh ∧ ch / fh ≤ 1.05 then
            some "vr180"
          else some "vr360"
        else some "vr360") = some "vr180"
      rw [if_pos ⟨h1, h2⟩, if_pos ⟨h3, h4, h5, h6⟩]
    · intro hnot
      rw [hred, hproj]
      match fullW, fullH, cropW, cropH with
      | none, _, _, _ => rfl
      | some fw, none, _, _ => rfl
      | some fw, some fh, none, _ => rfl
      | some fw, some fh, some cw, none => rfl
      | some fw, some fh, some cw, some ch =>
        show (if 0 < fw ∧ 0 < fh then
            if 0.49 ≤ cw / fw ∧ cw / fw ≤ 0.51 ∧ 0.95 ≤ ch / fh ∧ ch / fh ≤ 1.05 then
              some "vr180"
            else some "vr360"
          else some "vr360") = some "vr360"
        split_ifs with hpos hrange
        · exact absurd ⟨fw, fh, cw, ch, rfl, rfl, rfl, rfl, hpos.1, hpos.2,
            hrange.1, hrange.2.1, hrange.2.2.1, hrange.2.2.2⟩ hnot
        · rfl
        · rfl

/-- Witness for the XMP classifier theorem at the specification's example:
FullPanoWidth 3840, FullPanoHeight 1920, CroppedAreaWidth 1920,
CroppedAreaHeight 1920, ProjectionType equirectangular gives the half-sphere
classification (width ratio 0.50, height ratio 1.00). -/
theorem classifyFromXmp_spec_witness :
    classifyFromXmp (some "equirectangular") (some 3840) (some 1920) (some 1920) (some 1920) =
      some "vr180" :=
  (((classifyFromXmp_spec (some 3840) (some 1920) (some 1920) (some 1920)).2.2
    "equirectangular" (by decide)).1)
    ⟨3840, 1920, 1920, 1920, rfl, rfl, rfl, rfl, by norm_num, by norm_num,
      by norm_num, by norm_num, by norm_num, by norm_num⟩

/- ============== Render.js : materials and uniform updates (C2, C8) ============== -/

/-- The uniform slots a Three.js ShaderMaterial of this app can carry.  A
`none` field models a uniform that is absent from the material's uniform set
(so `if (u.name)` in `_updateMaterialUniforms` skips it and the GLSL default
applies).  The texture handle carries no information relevant to the claims
and is modelled as Unit. -/
structure Uniforms where
  map : Option Unit
  u_h_fov_rad : Option ℝ
  u_v_fov_rad : Option ℝ
  uLayout : Option ℤ
  uSwapEyes : Option ℤ
  uIsWatchView : Option Bool
  uHalfRes : Option Bool
  uLeftEye : Option Bool
  uEdgeFeather : Option (ℝ × ℝ)
  uAntiRed : Option ℚ
  uAntiGreen : Option ℚ
  uAntiBlue : Option ℚ
  uGreenBalance : Option ℚ
  uConvergence : Option ℚ
  uDepth : Option ℚ

/-- A material: its userData.type tag, its uniform set (`none` for a
MeshBasicMaterial, which has no custom uniforms), and its render side. -/
structure MaterialRec where
  matType : Option String
  uniforms : Option Uniforms
  side : String

/-- The mesh's material slot together with a generation counter: the counter
increments exactly when the material object is disposed and recreated, so
"parameter-only update" is "generation unchanged". -/
structure MeshMat where
  material : MaterialRec
  generation : ℕ

/-- Utils.isVrProjection. -/
def isVrProjection (projection : String) : Bool :=
  projection == "vr180" || projection == "vr360"

/-- Render._edgeFeatherForProjection. -/
noncomputable def edgeFeatherForProjection (projection : String) : ℝ × ℝ :=
  if projection == "vr180" then (0.05, 0.05) else (0, 0)

/-- Render._createEquirectMaterial: uniform set of the vr watch/source
material. -/
noncomputable def createEquirectMaterial (s : StoreSnap) : MaterialRec :=
  { matType := none
  , uniforms := some
      { map := some ()
      , u_h_fov_rad := some (if s.projection == "vr180" then Real.pi else Real.pi * 2)
      , u_v_fov_rad := some Real.pi
      , uLayout := some (if s.layout == "sbs" then 0 else 1)
      , uIsWatchView := some (s.view == "watch")
      , uHalfRes := some (s.resolution == "half")
      , uLeftEye := some (!(s.eye == "right"))
      , uEdgeFeather := some (0, 0)
      , uSwapEyes := none
      , uAntiRed := none, uAntiGreen := none, uAntiBlue := none
      , uGreenBalance := none, uConvergence := none, uDepth := none }
  , side := "front" }

/-- Render._createAnaglyphVrMaterial: uniform set of the vr anaglyph
material.  Note that none of the six calibration uniforms declared by
ANAGLYPH_FRAGMENT_SHADER (uAntiRed, uAntiGreen, uAntiBlue, uGreenBalance,
uConvergence, uDepth) is given a slot. -/
noncomputable def createAnaglyphVrMaterial (s : StoreSnap) : MaterialRec :=
  { matType := none
  , uniforms := some
      { map := some ()
      , u_h_fov_rad := some (if s.projection == "vr180" then Real.pi else Real.pi * 2)
      , u_v_fov_rad := some Real.pi
      , uLayout := some (if s.layout == "sbs" then 0 else 1)
      , uSwapEyes := some 0
      , uHalfRes := some (s.resolution == "half")
      , uEdgeFeather := some (0, 0)
      , uIsWatchView := none, uLeftEye := none
      , uAntiRed := none, uAntiGreen := none, uAntiBlue := none
      , uGreenBalance := none, uConvergence := none, uDepth := none }
  , side := "front" }

/-- Render._createAnaglyphFlatMaterial (map, uLayout, uSwapEyes only). -/
noncomputable def createAnaglyphFlatMaterial (s : StoreSnap) : MaterialRec :=
  { matType := none
  , uniforms := some
      { map := some ()
      , uLayout := some (if s.layout == "sbs" then 0 else 1)
      , uSwapEyes := some 0
      , u_h_fov_rad := none, u_v_fov_rad := none
      , uIsWatchView := none, uHalfRes := none, uLeftEye := none, uEdgeFeather := none
      , uAntiRed := none, uAntiGreen := none, uAntiBlue := none
      , uGreenBalance := none, uConvergence := none, uDepth := none }
  , side := "front" }

/-- Render._createWatchFlatMaterial (map, uLayout, uLeftEye only). -/
noncomputable def createWatchFlatMaterial (s : StoreSnap) : MaterialRec :=
  { matType := none
  , uniforms := some
      { map := some ()
      , uLayout := some (if s.layout == "sbs" then 0 else 1)
      , uLeftEye := some (!(s.eye == "right"))
      , u_h_fov_rad := none, u_v_fov_rad := none
      , uIsWatchView := none, uHalfRes := none, uSwapEyes := none, uEdgeFeather := none
      , uAntiRed := none, uAntiGreen := none, uAntiBlue := none
      , uGreenBalance := none, uConvergence := none, uDepth := none }
  , side := "front" }

/-- The MeshBasicMaterial used for the flat basic view: no custom uniforms. -/
def basicMaterial : MaterialRec :=
  { matType := none, uniforms := none, side := "front" }

/-- The type tag Render.updateMaterial resolves from the state (its
`intendedType`). -/
def resolveIntendedType (s : StoreSnap) : String :=
  if isVrProjection s.projection then
    (if s.view == "anaglyph" then "vr-anaglyph" else "vr-equirect")
  else if s.view == "anaglyph" then "flat-anaglyph"
  else if s.view == "watch" then "flat-watch"
  else "flat-basic"

/-- Render._updateMaterialUniforms: pushes the current state into every
uniform slot the material has.  Mirroring the source, there is no branch for
the calibration uniforms uAntiRed/uAntiGreen/uAntiBlue/uGreenBalance/
uConvergence/uDepth — those fields pass through untouched. -/
noncomputable def updateMaterialUniforms (u : Uniforms) (s : StoreSnap) : Uniforms :=
  { u with
    map := u.map.map (fun _ => ())
    u_h_fov_rad := u.u_h_fov_rad.map
      (fun _ => if s.projection == "vr180" then Real.pi else Real.pi * 2)
    u_v_fov_rad := u.u_v_fov_rad.map (fun _ => Real.pi)
    uLayout := u.uLayout.map (fun _ => if s.layout == "sbs" then 0 else 1)
    uHalfRes := u.uHalfRes.map (fun _ => s.resolution == "half")
    uIsWatchView := u.uIsWatchView.map (fun _ => s.view == "watch")
    uLeftEye := u.uLeftEye.map (fun _ => !(s.eye == "right"))
    uEdgeFeather := u.uEdgeFeather.map (fun _ => edgeFeatherForProjection s.projection) }

/-- Render.updateMaterial: recreate the material when the resolved type tag
differs from the bound one (bumping the generation counter, which models
dispose-and-recreate), then push the present uniforms and set the render
side. -/
noncomputable def updateMaterial (mm : MeshMat) (s : StoreSnap) : MeshMat :=
  let isVr := isVrProjection s.projection
  let intendedType := resolveIntendedType s
  let mm1 :=
    if mm.material.matType ≠ some intendedType then
      let created :=
        if isVr then
          (if s.view == "anaglyph" then createAnaglyphVrMaterial s else createEquirectMaterial s)
        else if s.view == "anaglyph" then createAnaglyphFlatMaterial s
        else if s.view == "watch" then createWatchFlatMaterial s
        else basicMaterial
      { material := { created with matType := some intendedType }
      , generation := mm.generation + 1 }
    else mm
  let m2 := { mm1.material with
    uniforms := mm1.material.uniforms.map (fun u => updateMaterialUniforms u s) }
  { mm1 with material := { m2 with side := if isVr then "back" else "front" } }

/-- C8: material caching invariant — updateMaterial leaves the mesh bound to
the resolved type tag; the material object survives (generation unchanged)
exactly when the bound type already equals the resolved type, and is rebuilt
(generation bumped by one) exactly when it differs; and the resolved tag is
always one of exactly five variants: "vr-equirect" (spherical-equirect),
"vr-anaglyph" (spherical-anaglyph), "flat-basic", "flat-anaglyph",
"flat-watch" (flat-mono). -/
theorem updateMaterial_cache_invariant (mm : MeshMat) (s : StoreSnap) :
    (updateMaterial mm s).material.matType = some (resolveIntendedType s)
    ∧ ((updateMaterial mm s).generation = mm.generation ↔
        mm.material.matType = some (resolveIntendedType s))
    ∧ (mm.material.matType ≠ some (resolveIntendedType s) →
        (updateMaterial mm s).generation = mm.generation + 1)
    ∧ (resolveIntendedType s = "vr-equirect" ∨ resolveIntendedType s = "vr-anaglyph" ∨
       resolveIntendedType s = "flat-basic" ∨ resolveIntendedType s = "flat-anaglyph" ∨
       resolveIntendedType s = "flat-watch") := by
  refine ⟨?_, ?_, ?_, ?_⟩
  · simp only [updateMaterial]
    by_cases h : mm.material.matType ≠ some (resolveIntendedType s)
    · rw [if_pos h]
    · rw [if_neg h]
      push_neg at h
      exact h
  · simp only [updateMaterial]
    by_cases h : mm.material.matType ≠ some (resolveIntendedType s)
    · rw [if_pos h]
      show mm.generation + 1 = mm.generation ↔ mm.material.matType = some (resolveIntendedType s)
      constructor
      · intro hgen
        exact absurd hgen (by omega)
      · intro heq
        exact absurd heq h
    · rw [if_neg h]
      push_neg at h
      exact ⟨fun _ => h, fun _ => rfl⟩
  · intro h
    simp only [updateMaterial]
    rw [if_pos h]
  · unfold resolveIntendedType
    split_ifs <;> simp

/-- Witness for the caching invariant: updating from an unbound material
(fresh mesh, type tag absent) rebuilds the program once. -/
theorem updateMaterial_cache_invariant_witness :
    (updateMaterial ⟨basicMaterial, 0⟩ wideSnap).generation = 0 + 1 :=
  (updateMaterial_cache_invariant ⟨basicMaterial, 0⟩ wideSnap).2.2.1 (by simp [basicMaterial])

/-- The store snapshot of a vr180 anaglyph session whose calibration sliders
are all pushed to 1 (convergence fully right, full leak suppression). -/
def calibSnap : StoreSnap :=
  { videoTracks := [], name := "sample_180vr.mp4", videoWidth := 3840, videoHeight := 1920
  , layout := "sbs", resolution := "full", projection := "vr180", view := "anaglyph"
  , eye := "left", antiR := 1, antiG := 1, antiB := 1, balance := 1
  , convergence := 1, depthCompression := 1 }

/-- C2 (code bug): after binding the vr-anaglyph material and running a
parameter-only updateMaterial on a state whose calibration scalars are all 1,
the material is still the bound vr-anaglyph program, but its uniform set has
no uConvergence (and no uAntiRed) slot at all — the calibration values never
reach the shader, whose uniforms stay at the GLSL default 0 instead of the
state values. -/
theorem calibration_uniforms_not_pushed :
    (updateMaterial (updateMaterial ⟨basicMaterial, 0⟩ calibSnap) calibSnap).material.matType =
      some "vr-anaglyph" ∧
    ((updateMaterial (updateMaterial ⟨basicMaterial, 0⟩ calibSnap) calibSnap).material.uniforms.map
      Uniforms.uConvergence) = some none ∧
    ((updateMaterial (updateMaterial ⟨basicMaterial, 0⟩ calibSnap) calibSnap).material.uniforms.map
      Uniforms.uAntiRed) = some none ∧
    calibSnap.convergence = 1 ∧ calibSnap.antiR = 1 := by
  refine ⟨?_, ?_, ?_, rfl, rfl⟩ <;>
    simp [updateMaterial, updateMaterialUniforms, createAnaglyphVrMaterial, basicMaterial,
      resolveIntendedType, isVrProjection, calibSnap]

/- ============ Render.js : pointer and wheel interaction (C10) ============ -/

/-- The renderer's interaction-relevant state: which camera is current
(`isPerspectiveCamera` is true exactly when the spherical projections'
perspective camera is bound, false for the flat orthographic camera), the
drag bookkeeping, the camera orientation and FOV, the canvas aspect, and the
projection FOVs recorded by `_createVrGeometry`. -/
structure RenderSt where
  isPerspectiveCamera : Bool
  isDragging : Bool
  dragLastX : ℝ
  dragLastY : ℝ
  yaw : ℝ
  pitch : ℝ
  fov : ℝ
  canvasAspect : ℝ
  projHFovDeg : ℝ
  projVFovDeg : ℝ

/-- Render._applyPanAndZoomClamps: no-op without the perspective camera;
otherwise clamp the FOV with the renderer settings, recompute the horizontal
FOV, and clamp yaw/pitch. -/
noncomputable def applyPanAndZoomClamps (st : RenderSt) : RenderSt :=
  if !st.isPerspectiveCamera then st
  else
    let fov2 := clampFov st.fov
      ⟨VR_VFOV_MIN_DEG, VR_VFOV_MAX_DEG, st.projVFovDeg, st.projHFovDeg, st.canvasAspect⟩
    let currentHFovDeg := vFovDegToHFovDeg fov2 st.canvasAspect
    let yp := clampYawPitch st.yaw st.pitch st.projHFovDeg st.projVFovDeg fov2 currentHFovDeg
    { st with fov := fov2, yaw := yp.1, pitch := yp.2 }

/-- Render._handleDragStart. -/
def handleDragStart (st : RenderSt) (clientX clientY : ℝ) : RenderSt :=
  { st with isDragging := true, dragLastX := clientX, dragLastY := clientY }

/-- Render._applyDragDelta. -/
noncomputable def applyDragDelta (st : RenderSt) (dx dy : ℝ) : RenderSt :=
  let res := dragToYawPitch st.yaw st.pitch dx dy DRAG_SENSITIVITY
  applyPanAndZoomClamps { st with yaw := res.1, pitch := res.2 }

/-- Render._handleDragMove. -/
noncomputable def handleDragMove (st : RenderSt) (clientX clientY : ℝ) : RenderSt :=
  let dx := clientX - st.dragLastX
  let dy := clientY - st.dragLastY
  let st1 := applyDragDelta st dx dy
  { st1 with dragLastX := clientX, dragLastY := clientY }

/-- Render._onPointerDown: returns immediately unless the perspective camera
is current. -/
def onPointerDown (st : RenderSt) (clientX clientY : ℝ) : RenderSt :=
  if !st.isPerspectiveCamera then st
  else handleDragStart st clientX clientY

/-- Render._onPointerMove: returns immediately unless dragging with the
perspective camera current. -/
noncomputable def onPointerMove (st : RenderSt) (clientX clientY : ℝ) : RenderSt :=
  if !st.isDragging || !st.isPerspectiveCamera then st
  else handleDragMove st clientX clientY

/-- Render._onWheel: returns immediately unless the perspective camera is
current; otherwise applies the wheel zoom and re-clamps. -/
noncomputable def onWheel (st : RenderSt) (deltaY : ℝ) : RenderSt :=
  if !st.isPerspectiveCamera then st
  else applyPanAndZoomClamps { st with fov := zoomFromWheel st.fov deltaY ZOOM_SENSITIVITY }

/-- C10: while the flat projection is active (the orthographic camera is
current, so isPerspectiveCamera is false), the pointer-down, pointer-move and
wheel handlers leave yaw, pitch and the perspective FOV untouched. -/
theorem flat_handlers_preserve_camera (st : RenderSt) (cx cy dy : ℝ)
    (h : st.isPerspectiveCamera = false) :
    (onPointerDown st cx cy).yaw = st.yaw ∧ (onPointerDown st cx cy).pitch = st.pitch ∧
    (onPointerDown st cx cy).fov = st.fov ∧
    (onPointerMove st cx cy).yaw = st.yaw ∧ (onPointerMove st cx cy).pitch = st.pitch ∧
    (onPointerMove st cx cy).fov = st.fov ∧
    (onWheel st dy).yaw = st.yaw ∧ (onWheel st dy).pitch = st.pitch ∧
    (onWheel st dy).fov = st.fov := by
  have h1 : onPointerDown st cx cy = st := by
    unfold onPointerDown
    rw [h]
    rfl
  have h2 : onPointerMove st cx cy = st := by
    unfold onPointerMove
    rw [h]
    rw [if_pos (by simp)]
  have h3 : onWheel st dy = st := by
    unfold onWheel
    rw [h]
    rfl
  rw [h1, h2, h3]
  exact ⟨rfl, rfl, rfl, rfl, rfl, rfl, rfl, rfl, rfl⟩

/-- The interaction state of a flat (orthographic) session. -/
noncomputable def flatSt : RenderSt :=
  { isPerspectiveCamera := false, isDragging := false, dragLastX := 0, dragLastY := 0
  , yaw := 0, pitch := 0, fov := 100, canvasAspect := 16 / 9
  , projHFovDeg := 0, projVFovDeg := 0 }

/-- Witness for the flat-projection handler theorem on a concrete
orthographic-camera state. -/
theorem flat_handlers_preserve_camera_witness :
    (onWheel flatSt 120).fov = flatSt.fov :=
  (flat_handlers_preserve_camera flatSt 5 7 120 rfl).2.2.2.2.2.2.2.2
